import Mathlib

/-!
Verification development for the ibc-go light-client core.

The definitions below are a shallow embedding of the Go sources:

* `modules/light-clients/06-solomachine/types/client_state.go` — the solo
  machine client state and its verification operations (`Status`,
  `Initialize`, `VerifyMembership`, `VerifyNonMembership`,
  `VerifyConnectionState`, `produceVerificationArgs`,
  `VerifyUpgradeAndUpdateState`).
* the 08-wasm keeper (`storeWasmCode`, `generateWasmCodeHash`).
* a model of the 02-client keeper / 07-tendermint update and misbehaviour
  handling, written from the specification because that code is not part of
  the source tree (only its tests are).

External collaborators (the protobuf codec, the signature scheme, sha256,
the gzip compressor and the wasm virtual machine) are abstracted as
function-valued parameters; the control flow, field updates and store
writes of each embedded function follow the Go source line by line.
-/

namespace IBC

/-- Raw bytes are modelled as lists of naturals. -/
abbrev Bytes := List Nat

/-- `Height`: `(revision_number, revision_height)`, from `02-client/types`. -/
structure Height where
  revisionNumber : Nat
  revisionHeight : Nat
deriving DecidableEq, Repr

/-- Lexicographic strict order on heights: revision number first, then
revision height. -/
def Height.lt (a b : Height) : Prop :=
  a.revisionNumber < b.revisionNumber ∨
    (a.revisionNumber = b.revisionNumber ∧ a.revisionHeight < b.revisionHeight)

instance (a b : Height) : Decidable (Height.lt a b) := by
  unfold Height.lt
  exact inferInstance

/-- Non-strict order on heights. -/
def Height.le (a b : Height) : Prop :=
  Height.lt a b ∨ a = b

instance (a b : Height) : Decidable (Height.le a b) := by
  unfold Height.le
  exact inferInstance

theorem Height.le_refl (a : Height) : Height.le a a := Or.inr rfl

theorem Height.le_of_lt {a b : Height} (h : Height.lt a b) : Height.le a b := Or.inl h

theorem Height.not_lt_of_le {a b : Height} (hab : Height.le a b) : ¬ Height.lt b a := by
  cases a with
  | mk ar ah =>
    cases b with
    | mk br bh =>
      rcases hab with hlt | heq
      · unfold Height.lt at *
        simp only [Height.mk.injEq] at *
        omega
      · cases heq
        unfold Height.lt
        simp only [Height.mk.injEq]
        omega

/-- `exported.Status` of a client: Active, Frozen or Expired. -/
inductive ClientStatus where
  | active
  | frozen
  | expired
deriving DecidableEq, Repr

/-! ## Solo machine client (06-solomachine)

Translated from `modules/light-clients/06-solomachine/types/client_state.go`.
-/

/-- Solo machine `ConsensusState`: a public key (`none` models a `PublicKey`
whose cached value is not a `cryptotypes.PubKey`, in which case `GetPubKey`
errors), a diversifier and a timestamp. -/
structure SMConsensusState where
  pubKey : Option Nat
  diversifier : String
  timestamp : Nat
deriving DecidableEq, Repr

/-- Solo machine `ClientState`: sequence, frozen flag, consensus state and
the `AllowUpdateAfterProposal` flag. -/
structure SMClientState where
  sequence : Nat
  isFrozen : Bool
  consensusState : Option SMConsensusState
  allowUpdateAfterProposal : Bool
deriving DecidableEq, Repr

/-- Error kinds surfaced by the solo machine client operations.
`clientFrozen` is the error kind named by the specification for
verification on a frozen client. -/
inductive SMErr where
  | invalidHeight
  | invalidProof
  | invalidConsensus
  | invalidPrefix
  | unmarshalError
  | marshalError
  | pubKeyError
  | signatureError
  | invalidUpgrade
  | clientFrozen
deriving DecidableEq, Repr

/-- `TimestampedSignatureData`: the decoded proof blob. -/
structure TimestampedSignatureData where
  timestamp : Nat
  signatureData : Bytes
deriving DecidableEq, Repr

/-- `SignBytesV2`, the payload signed over in `VerifyMembership`. -/
structure SignBytesV2 where
  sequence : Nat
  timestamp : Nat
  diversifier : String
  path : Bytes
  data : Bytes
deriving DecidableEq, Repr

/-- The protobuf codec and the sign-bytes constructors, abstracted: these
live outside the embedded file (cosmos-sdk codec, solo machine proof
helpers). Partial functions are modelled with `Option`. -/
structure Codec where
  unmarshalPath : Bytes → Option (List String)
  unmarshalProof : Bytes → Option TimestampedSignatureData
  unmarshalSigData : Bytes → Option Nat
  marshalSignBytes : SignBytesV2 → Option Bytes
  connSignBytes : Nat → Nat → String → List String → Nat → Option Bytes

/-- The signature verifier `VerifySignature(publicKey, signBz, sigData)`,
abstracted as a boolean oracle. -/
abbrev SigVerifier := Nat → Bytes → Nat → Bool

/-- `MerklePath.String()`: `"/" + strings.Join(KeyPath, "/")`. -/
def merklePathString (p : List String) : String :=
  String.intercalate "/" ("" :: p)

/-- String to bytes. -/
def strBytes (s : String) : Bytes :=
  s.toList.map Char.toNat

/-- `Status` (client_state.go lines 59-65): Frozen if the frozen flag is
set, Active otherwise. -/
def SMClientState.status (cs : SMClientState) : ClientStatus :=
  if cs.isFrozen then ClientStatus.frozen else ClientStatus.active

/-- `Initialize` (client_state.go lines 87-93): errors unless the supplied
consensus state deep-equals the one recorded in the initial client state. -/
def initializeClient (cs : SMClientState) (consState : SMConsensusState) :
    Option SMErr :=
  if cs.consensusState = some consState then none else some SMErr.invalidConsensus

/-- `VerifyUpgradeAndUpdateState` (client_state.go lines 101-106): the solo
machine client never supports upgrades. -/
def SMClientState.upgrade (_cs : SMClientState) : Option SMErr :=
  some SMErr.invalidUpgrade

/-- The client store at `host.KeyClientState`: either a stored client state
or nothing. -/
abbrev SMStore := Option SMClientState

/-- `VerifyMembership` (client_state.go lines 433-515). Returns the error
(or `none` on success) together with the store after the call; the store is
written only by the final `setClientState`, which records the client state
with its sequence incremented and the consensus timestamp replaced by the
proof's timestamp. -/
def verifyMembership (cdc : Codec) (sv : SigVerifier) (cs : SMClientState)
    (height : Height) (proof path value : Bytes) (store : SMStore) :
    Option SMErr × SMStore :=
  if height.revisionNumber ≠ 0 then (some SMErr.invalidHeight, store)
  else
    -- the solo machine sequence is encoded in the revision height of the height struct
    if cs.sequence ≠ height.revisionHeight then (some SMErr.invalidHeight, store)
    else
      match cdc.unmarshalPath path with
      | none => (some SMErr.invalidProof, store)
      | some merklePath =>
        match cdc.unmarshalProof proof with
        | none => (some SMErr.unmarshalError, store)
        | some timestampedSigData =>
          if timestampedSigData.signatureData = [] then (some SMErr.invalidProof, store)
          else
            match cdc.unmarshalSigData timestampedSigData.signatureData with
            | none => (some SMErr.unmarshalError, store)
            | some sigData =>
              match cs.consensusState with
              | none => (some SMErr.invalidConsensus, store)
              | some consState =>
                if consState.timestamp > timestampedSigData.timestamp then
                  (some SMErr.invalidProof, store)
                else
                  match consState.pubKey with
                  | none => (some SMErr.pubKeyError, store)
                  | some publicKey =>
                    match cdc.marshalSignBytes
                        { sequence := height.revisionHeight
                          timestamp := timestampedSigData.timestamp
                          diversifier := consState.diversifier
                          path := strBytes (merklePathString merklePath)
                          data := value } with
                    | none => (some SMErr.marshalError, store)
                    | some signBz =>
                      if sv publicKey signBz sigData then
                        (none,
                          some
                            { cs with
                              sequence := cs.sequence + 1
                              consensusState :=
                                some { consState with
                                       timestamp := timestampedSigData.timestamp } })
                      else (some SMErr.signatureError, store)

/-- `VerifyNonMembership` (client_state.go lines 519-531): the body is a
`TODO` stub that returns `nil` unconditionally, touching nothing. -/
def verifyNonMembership (_cs : SMClientState) (_height : Height)
    (_proof _path : Bytes) (store : SMStore) : Option SMErr × SMStore :=
  (none, store)

/-- Result bundle of `produceVerificationArgs`: public key, signature data,
proof timestamp and the sequence encoded in the proof height. -/
structure PVArgs where
  publicKey : Nat
  sigData : Nat
  timestamp : Nat
  sequence : Nat
deriving DecidableEq, Repr

/-- `produceVerificationArgs` (client_state.go lines 537-600), shared by the
legacy verification functions. -/
def produceVerificationArgs (cdc : Codec) (cs : SMClientState) (height : Height)
    (pfx : Option Bytes) (proof : Bytes) : Except SMErr PVArgs :=
  if height.revisionNumber ≠ 0 then Except.error SMErr.invalidHeight
  else
    -- the solo machine sequence is encoded in the revision height of the height struct
    match pfx with
    | none => Except.error SMErr.invalidPrefix
    | some _ =>
      if proof = [] then Except.error SMErr.invalidProof
      else
        match cdc.unmarshalProof proof with
        | none => Except.error SMErr.unmarshalError
        | some timestampedSigData =>
          if timestampedSigData.signatureData = [] then Except.error SMErr.invalidProof
          else
            match cdc.unmarshalSigData timestampedSigData.signatureData with
            | none => Except.error SMErr.unmarshalError
            | some sigData =>
              match cs.consensusState with
              | none => Except.error SMErr.invalidConsensus
              | some consState =>
                if cs.sequence ≠ height.revisionHeight then Except.error SMErr.invalidHeight
                else if consState.timestamp > timestampedSigData.timestamp then
                  Except.error SMErr.invalidProof
                else
                  match consState.pubKey with
                  | none => Except.error SMErr.pubKeyError
                  | some publicKey =>
                    Except.ok
                      { publicKey := publicKey
                        sigData := sigData
                        timestamp := timestampedSigData.timestamp
                        sequence := height.revisionHeight }

/-- `host.ConnectionPath`. -/
def connectionPath (connectionID : String) : String :=
  "connections/" ++ connectionID

/-- `commitmenttypes.ApplyPrefix`: errors on an empty prefix, otherwise
prepends the prefix to the key path. -/
def applyPrefix (pfx : Bytes) (path : List String) : Option (List String) :=
  if pfx = [] then none
  else some (String.mk (pfx.map Char.ofNat) :: path)

/-- `VerifyConnectionState` (client_state.go lines 191-224): runs
`produceVerificationArgs`, builds the prefixed connection path and the sign
bytes, checks the signature, and on success increments the sequence, sets
the consensus timestamp and writes the client state to the store. -/
def verifyConnectionState (cdc : Codec) (sv : SigVerifier) (cs : SMClientState)
    (height : Height) (pfx : Option Bytes) (proof : Bytes)
    (connectionID : String) (connectionEnd : Nat) (store : SMStore) :
    Option SMErr × SMStore :=
  match produceVerificationArgs cdc cs height pfx proof with
  | Except.error e => (some e, store)
  | Except.ok args =>
    match applyPrefix (pfx.getD []) [connectionPath connectionID] with
    | none => (some SMErr.invalidPrefix, store)
    | some path =>
      match cdc.connSignBytes args.sequence args.timestamp
          ((cs.consensusState.map (fun c => c.diversifier)).getD "") path connectionEnd with
      | none => (some SMErr.marshalError, store)
      | some signBz =>
        if sv args.publicKey signBz args.sigData then
          (none,
            some
              { cs with
                sequence := cs.sequence + 1
                consensusState :=
                  cs.consensusState.map (fun c => { c with timestamp := args.timestamp }) })
        else (some SMErr.signatureError, store)

/-- Modelled from the spec: the 02-client keeper `CreateClient` (not under
the source tree) calls `clientState.Initialize` with the caller-supplied
initial consensus state and, when it succeeds, "stores the first
ConsensusState" at the client's initial height. The returned store maps the
solo machine sequence to the stored consensus state. -/
def createClient (cs : SMClientState) (consState : SMConsensusState) :
    Except SMErr (List (Nat × SMConsensusState)) :=
  match initializeClient cs consState with
  | some e => Except.error e
  | none => Except.ok [(cs.sequence, consState)]

/-! ## Tendermint-style client: update and misbehaviour

The 02-client keeper `UpdateClient` / `CheckMisbehaviourAndUpdateState` and
the 07-tendermint client implementation are exercised by the tests in the
source tree but their code is not part of it, so the operations below are
modelled from the specification (spec sections 4.1, 7 and 8) and checked
against the behaviour the tests assert.
-/

/-- Tendermint-style `ConsensusState`: timestamp, commitment root and next
validator set hash (roots and hashes are opaque handles). -/
structure TMConsensusState where
  timestamp : Nat
  root : Nat
  nextValidatorsHash : Nat
deriving DecidableEq, Repr

/-- A header: its height, its declared trusted height, and the content it
asserts. `sigData` stands for the commit signatures. -/
structure TMHeader where
  height : Height
  trustedHeight : Height
  timestamp : Nat
  root : Nat
  nextValidatorsHash : Nat
  sigData : Nat
deriving DecidableEq, Repr

/-- The consensus state a header asserts at its height. -/
def TMHeader.consensusState (hd : TMHeader) : TMConsensusState :=
  { timestamp := hd.timestamp, root := hd.root, nextValidatorsHash := hd.nextValidatorsHash }

/-- A client record together with its height-indexed consensus state store. -/
structure TMClient where
  latestHeight : Height
  frozenHeight : Option Height
  trustingPeriod : Nat
  consensus : List (Height × TMConsensusState)
deriving DecidableEq, Repr

/-- Error kinds of the update and misbehaviour paths. -/
inductive TMErr where
  | clientFrozen
  | clientExpired
  | headerInvalid
  | consensusStateNotFound
  | misbehaviourInvalid
deriving DecidableEq, Repr

/-- The signature/quorum validity rule of the trust model, abstracted: a
header is checked against the trusted consensus state. -/
structure TMEnv where
  headerValid : TMConsensusState → TMHeader → Bool

/-- Lookup in the height-indexed consensus state store. -/
def lookupCons (l : List (Height × TMConsensusState)) (h : Height) :
    Option TMConsensusState :=
  match l with
  | [] => none
  | (k, v) :: t => if k = h then some v else lookupCons t h

/-- Modelled from the spec: `update_state(header)` as performed by the
02-client keeper `UpdateClient` with the 07-tendermint client (neither is
under the source tree). Fails `ClientFrozen` when the client is not Active,
`ConsensusStateNotFound` when the declared trusted height has no snapshot,
`ClientExpired` when the trusted snapshot is outside the trusting period and
`HeaderInvalid` when the signature/quorum rule rejects the header. On
success: a conflicting stored consensus state at the header's height routes
to misbehaviour and freezes at that height; a matching one is an idempotent
no-op; otherwise the header's consensus state is stored, advancing
`latest_height` only when the header height exceeds it. -/
def updateState (env : TMEnv) (now : Nat) (c : TMClient) (hd : TMHeader) :
    Except TMErr TMClient :=
  if c.frozenHeight.isSome then Except.error TMErr.clientFrozen
  else
    match lookupCons c.consensus hd.trustedHeight with
    | none => Except.error TMErr.consensusStateNotFound
    | some trustedCons =>
      if now - trustedCons.timestamp > c.trustingPeriod then
        Except.error TMErr.clientExpired
      else if env.headerValid trustedCons hd = false then Except.error TMErr.headerInvalid
      else
        match lookupCons c.consensus hd.height with
        | some stored =>
          if stored = hd.consensusState then Except.ok c
          else Except.ok { c with frozenHeight := some hd.height }
        | none =>
          if Height.lt c.latestHeight hd.height then
            Except.ok
              { c with
                latestHeight := hd.height
                consensus := (hd.height, hd.consensusState) :: c.consensus }
          else
            Except.ok { c with consensus := (hd.height, hd.consensusState) :: c.consensus }

/-- Misbehaviour evidence: two headers. -/
structure Misbehaviour where
  header1 : TMHeader
  header2 : TMHeader
deriving DecidableEq, Repr

/-- Modelled from the spec: `check_misbehaviour(evidence)` as performed by
the 02-client keeper `CheckMisbehaviourAndUpdateState` (not under the source
tree). Fails when the client is already frozen, when either header's
declared trusted height is not below its own height, when either trusted
snapshot is missing, or when either header fails the independent
signature/quorum check; evidence is accepted when the two headers assert
different content at the same height or violate time monotonicity across
heights, and the client is then frozen at the evidence height (the first
header's height). -/
def checkMisbehaviour (env : TMEnv) (c : TMClient) (m : Misbehaviour) :
    Except TMErr TMClient :=
  if c.frozenHeight.isSome then Except.error TMErr.clientFrozen
  else if Height.lt m.header1.trustedHeight m.header1.height ∧
          Height.lt m.header2.trustedHeight m.header2.height then
    match lookupCons c.consensus m.header1.trustedHeight,
          lookupCons c.consensus m.header2.trustedHeight with
    | some t1, some t2 =>
      if env.headerValid t1 m.header1 = false then Except.error TMErr.misbehaviourInvalid
      else if env.headerValid t2 m.header2 = false then Except.error TMErr.misbehaviourInvalid
      else if (m.header1.height = m.header2.height ∧
               m.header1.consensusState ≠ m.header2.consensusState) ∨
              (Height.lt m.header2.height m.header1.height ∧
               m.header1.timestamp ≤ m.header2.timestamp) then
        Except.ok { c with frozenHeight := some m.header1.height }
      else Except.error TMErr.misbehaviourInvalid
    | _, _ => Except.error TMErr.consensusStateNotFound
  else Except.error TMErr.misbehaviourInvalid

/-! ## 08-wasm keeper: `storeWasmCode` -/

/-- External collaborators of `storeWasmCode`: sha256, the gzip detector and
uncompressor, the wasm validator and the wasm virtual machine. -/
structure WasmEnv where
  sha256 : Bytes → Bytes
  isGzip : Bytes → Bool
  uncompress : Bytes → Option Bytes
  validateWasmCode : Bytes → Bool
  vmStoreCode : Bytes → Option Bytes
  vmPinOk : Bytes → Bool

/-- Error kinds of `storeWasmCode`. -/
inductive WasmErr where
  | wasmCodeExists
  | invalidCodeHash
  | uncompressFailed
  | validateFailed
  | vmStoreFailed
  | pinFailed
deriving DecidableEq, Repr

/-- `generateWasmCodeHash` (part_001 lines 97-100): sha256 of the code. -/
def generateWasmCodeHash (env : WasmEnv) (code : Bytes) : Bytes :=
  env.sha256 code

/-- The uncompression step at the head of `storeWasmCode`: gzip-compressed
code is uncompressed, other code passes through. -/
def uncompressCode (env : WasmEnv) (code : Bytes) : Option Bytes :=
  if env.isGzip code then env.uncompress code else some code

/-- `storeWasmCode` (part_001 lines 102-147): uncompress if gzipped, hash,
reject an already-recorded hash with `ErrWasmCodeExists`, validate, store in
the virtual machine, check the VM-returned hash equals the locally computed
one, pin, record the hash, and return it. The code-hash store is the list of
recorded hashes. -/
def storeWasmCode (env : WasmEnv) (store : List Bytes) (code : Bytes) :
    Except WasmErr (Bytes × List Bytes) :=
  match uncompressCode env code with
  | none => Except.error WasmErr.uncompressFailed
  | some code =>
    -- Check to see if store already has codeHash.
    if generateWasmCodeHash env code ∈ store then Except.error WasmErr.wasmCodeExists
    else if env.validateWasmCode code = false then Except.error WasmErr.validateFailed
    else
      match env.vmStoreCode code with
      | none => Except.error WasmErr.vmStoreFailed
      | some vmCodeHash =>
        if vmCodeHash ≠ generateWasmCodeHash env code then Except.error WasmErr.invalidCodeHash
        else if env.vmPinOk vmCodeHash = false then Except.error WasmErr.pinFailed
        else Except.ok (generateWasmCodeHash env code, generateWasmCodeHash env code :: store)

/-! ## Concrete instances used for witnesses and counterexamples -/

/-- A concrete codec: every blob decodes, the proof blob's signature data is
its own bytes (so the zero blob decodes to the zero message, as the protobuf
codec does) and its timestamp is 10. -/
def testCodec : Codec where
  unmarshalPath := fun _ => some ["k"]
  unmarshalProof := fun b => some { timestamp := 10, signatureData := b }
  unmarshalSigData := fun _ => some 0
  marshalSignBytes := fun _ => some [1]
  connSignBytes := fun _ _ _ _ _ => some [2]

/-- A signature oracle that accepts everything (a run in which the
relayer-supplied signature is genuine). -/
def svAlways : SigVerifier := fun _ _ _ => true

/-- A signature oracle that rejects everything. -/
def svNever : SigVerifier := fun _ _ _ => false

/-- An active solo machine client at sequence 1. -/
def csActive : SMClientState :=
  { sequence := 1
    isFrozen := false
    consensusState := some { pubKey := some 0, diversifier := "d", timestamp := 3 }
    allowUpdateAfterProposal := false }

/-- The same client with the frozen flag set. -/
def csFrozen : SMClientState :=
  { csActive with isFrozen := true }

/-! ## Structure lemmas for the solo machine verification functions -/

/-- Case analysis for `verifyMembership`: every run either fails and leaves
the store untouched, or succeeds and writes the client state with the
sequence incremented and the consensus timestamp replaced by the decoded
proof's timestamp. -/
theorem verifyMembership_spec (cdc : Codec) (sv : SigVerifier) (cs : SMClientState)
    (height : Height) (proof path value : Bytes) (store : SMStore) :
    (∃ e, verifyMembership cdc sv cs height proof path value store = (some e, store)) ∨
    (∃ tsd consState,
      cdc.unmarshalProof proof = some tsd ∧
      cs.consensusState = some consState ∧
      verifyMembership cdc sv cs height proof path value store =
        (none, some { cs with
                      sequence := cs.sequence + 1
                      consensusState := some { consState with timestamp := tsd.timestamp } })) := by
  unfold verifyMembership
  repeat' split
  all_goals first
    | exact Or.inl ⟨_, rfl⟩
    | exact Or.inr ⟨_, _, by assumption, by assumption, rfl⟩

/-- Case analysis for `verifyConnectionState`: failure leaves the store
untouched; success writes the client state with the sequence incremented and
the consensus timestamp replaced by the proof's timestamp. -/
theorem verifyConnectionState_spec (cdc : Codec) (sv : SigVerifier) (cs : SMClientState)
    (height : Height) (pfx : Option Bytes) (proof : Bytes)
    (connectionID : String) (connectionEnd : Nat) (store : SMStore) :
    (∃ e, verifyConnectionState cdc sv cs height pfx proof connectionID connectionEnd store =
      (some e, store)) ∨
    (∃ args,
      produceVerificationArgs cdc cs height pfx proof = Except.ok args ∧
      verifyConnectionState cdc sv cs height pfx proof connectionID connectionEnd store =
        (none, some { cs with
                      sequence := cs.sequence + 1
                      consensusState :=
                        cs.consensusState.map (fun c => { c with timestamp := args.timestamp }) })) := by
  unfold verifyConnectionState
  repeat' split
  all_goals first
    | exact Or.inl ⟨_, rfl⟩
    | exact Or.inr ⟨_, by assumption, rfl⟩

/-- Every run of `produceVerificationArgs` in which the proof height's
revision number is nonzero, the encoded sequence differs from the client's
sequence, or the proof is empty, ends in an error. -/
theorem produceVerificationArgs_guard (cdc : Codec) (cs : SMClientState) (height : Height)
    (pfx : Option Bytes) (proof : Bytes)
    (hguard : height.revisionNumber ≠ 0 ∨ cs.sequence ≠ height.revisionHeight ∨ proof = []) :
    ∃ e, produceVerificationArgs cdc cs height pfx proof = Except.error e := by
  unfold produceVerificationArgs
  repeat' split
  all_goals first
    | exact ⟨_, rfl⟩
    | (exfalso; rcases hguard with h | h | h <;> simp_all)

/-- Under the same guard conditions (and a codec whose decoding of the empty
blob yields empty signature data, as the protobuf codec does),
`verifyMembership` errors without consulting the signature oracle: the
result is the same for every oracle and the store is untouched. -/
theorem verifyMembership_guard (cdc : Codec) (cs : SMClientState) (height : Height)
    (proof path value : Bytes) (store : SMStore)
    (hempty : ∀ tsd, cdc.unmarshalProof [] = some tsd → tsd.signatureData = [])
    (hguard : height.revisionNumber ≠ 0 ∨ cs.sequence ≠ height.revisionHeight ∨ proof = []) :
    ∃ e, ∀ sv : SigVerifier,
      verifyMembership cdc sv cs height proof path value store = (some e, store) := by
  by_cases h0 : height.revisionNumber ≠ 0
  · exact ⟨SMErr.invalidHeight, fun sv => by simp [verifyMembership, h0]⟩
  · by_cases hs : cs.sequence ≠ height.revisionHeight
    · exact ⟨SMErr.invalidHeight, fun sv => by simp [verifyMembership, h0, hs]⟩
    · have hpe : proof = [] := by
        rcases hguard with h | h | h
        · exact absurd h h0
        · exact absurd h hs
        · exact h
      subst hpe
      rcases hp : cdc.unmarshalPath path with _ | mp
      · exact ⟨SMErr.invalidProof, fun sv => by simp [verifyMembership, h0, hs, hp]⟩
      · rcases hu : cdc.unmarshalProof [] with _ | tsd
        · exact ⟨SMErr.unmarshalError, fun sv => by simp [verifyMembership, h0, hs, hp, hu]⟩
        · have hsd := hempty tsd hu
          exact ⟨SMErr.invalidProof, fun sv => by simp [verifyMembership, h0, hs, hp, hu, hsd]⟩

/-- Under the same guard conditions, `verifyConnectionState` errors without
consulting the signature oracle, leaving the store untouched. -/
theorem verifyConnectionState_guard (cdc : Codec) (cs : SMClientState) (height : Height)
    (pfx : Option Bytes) (proof : Bytes) (connectionID : String) (connectionEnd : Nat)
    (store : SMStore)
    (hguard : height.revisionNumber ≠ 0 ∨ cs.sequence ≠ height.revisionHeight ∨ proof = []) :
    ∃ e, ∀ sv : SigVerifier,
      verifyConnectionState cdc sv cs height pfx proof connectionID connectionEnd store =
        (some e, store) := by
  obtain ⟨e, he⟩ := produceVerificationArgs_guard cdc cs height pfx proof hguard
  exact ⟨e, fun sv => by simp [verifyConnectionState, he]⟩

/-- The client state `verifyMembership` writes when run on `csFrozen` with
the concrete codec: the sequence advances to 2 and the consensus timestamp
becomes the proof's timestamp, while the frozen flag is kept. -/
def csFrozenAfter : SMClientState :=
  { csFrozen with
    sequence := 2
    consensusState := some { pubKey := some 0, diversifier := "d", timestamp := 10 } }

/-- A trust-model oracle accepting every header. -/
def envT : TMEnv := { headerValid := fun _ _ => true }

/-- Consensus snapshot trusted at height (0,1). -/
def tcs1 : TMConsensusState := { timestamp := 1, root := 100, nextValidatorsHash := 5 }

/-- Consensus snapshot trusted at height (0,3). -/
def tcs3 : TMConsensusState := { timestamp := 3, root := 300, nextValidatorsHash := 5 }

/-- A concrete client at latest height (0,3) with snapshots at (0,1) and (0,3). -/
def cW : TMClient :=
  { latestHeight := ⟨0, 3⟩
    frozenHeight := none
    trustingPeriod := 100
    consensus := [(⟨0, 1⟩, tcs1), (⟨0, 3⟩, tcs3)] }

/-- A header at height (0,2), below the latest height, trusted at (0,1). -/
def hdW : TMHeader :=
  { height := ⟨0, 2⟩
    trustedHeight := ⟨0, 1⟩
    timestamp := 2
    root := 200
    nextValidatorsHash := 5
    sigData := 0 }

/-- The client after back-filling `hdW`'s consensus state into `cW`. -/
def cW2 : TMClient :=
  { cW with consensus := (hdW.height, hdW.consensusState) :: cW.consensus }

/-- First conflicting header at evidence height (0,9), trusted at (0,1). -/
def mh1 : TMHeader :=
  { height := ⟨0, 9⟩
    trustedHeight := ⟨0, 1⟩
    timestamp := 7
    root := 900
    nextValidatorsHash := 5
    sigData := 0 }

/-- Second conflicting header at the same height with a different root,
trusted at the different height (0,3). -/
def mh2 : TMHeader :=
  { height := ⟨0, 9⟩
    trustedHeight := ⟨0, 3⟩
    timestamp := 8
    root := 901
    nextValidatorsHash := 5
    sigData := 1 }

/-- Misbehaviour evidence built from the two conflicting headers. -/
def mW : Misbehaviour := { header1 := mh1, header2 := mh2 }

/-- A concrete wasm environment: the hash of a blob is its length plus 100,
nothing is gzipped, validation passes and the virtual machine returns the
same hash. -/
def envW10 : WasmEnv :=
  { sha256 := fun b => [b.length + 100]
    isGzip := fun _ => false
    uncompress := fun b => some b
    validateWasmCode := fun _ => true
    vmStoreCode := fun b => some [b.length + 100]
    vmPinOk := fun _ => true }

/-- Evaluation of `updateState` when a matching consensus state is already
stored at the header's height: the call is an idempotent no-op. -/
theorem updateState_eval (env : TMEnv) (now : Nat) (c : TMClient) (hd : TMHeader)
    (tc : TMConsensusState)
    (hfz : c.frozenHeight = none)
    (htc : lookupCons c.consensus hd.trustedHeight = some tc)
    (hexp : ¬ now - tc.timestamp > c.trustingPeriod)
    (hv : env.headerValid tc hd = true)
    (hst : lookupCons c.consensus hd.height = some hd.consensusState) :
    updateState env now c hd = Except.ok c := by
  unfold updateState
  rw [hfz]
  simp only [Option.isSome_none, Bool.false_eq_true, if_false, htc, if_neg hexp, hv,
    reduceCtorEq, hst, ite_true, if_true, eq_self_iff_true]

/-! ## Claims -/

/-- C1 counterexample: proof verification is not side-effect-free. A
concrete successful `VerifyMembership` call returns no error yet changes
the stored client state, refuting the claim that the stored client state is
identical before and after every call. -/
theorem c1_side_effect_free_counterexample :
    (verifyMembership testCodec svAlways csActive ⟨0, 1⟩ [9] [7] [5] (some csActive)).1 = none ∧
    (verifyMembership testCodec svAlways csActive ⟨0, 1⟩ [9] [7] [5] (some csActive)).2 ≠
      some csActive := by
  decide

/-- C1 (amended): a failed verification call leaves the stored client state
unchanged, but a successful `VerifyMembership` or `VerifyConnectionState`
call writes back a client state whose sequence is incremented by one and
whose consensus timestamp is replaced by the decoded proof's timestamp
(for `VerifyConnectionState`, the timestamp returned by
`produceVerificationArgs`, which is the decoded proof's timestamp), with
the frozen flag preserved. -/
theorem c1_verification_state_effects (cdc : Codec) (sv : SigVerifier) (cs : SMClientState)
    (height : Height) (proof path value : Bytes) (store : SMStore)
    (pfx : Option Bytes) (proofC : Bytes) (connectionID : String) (connectionEnd : Nat) :
    ((verifyMembership cdc sv cs height proof path value store).1.isSome = true →
      (verifyMembership cdc sv cs height proof path value store).2 = store) ∧
    ((verifyMembership cdc sv cs height proof path value store).1 = none →
      ∃ tsd consState cs',
        cdc.unmarshalProof proof = some tsd ∧
        cs.consensusState = some consState ∧
        (verifyMembership cdc sv cs height proof path value store).2 = some cs' ∧
        cs'.sequence = cs.sequence + 1 ∧ cs'.isFrozen = cs.isFrozen ∧
        cs'.consensusState = some { consState with timestamp := tsd.timestamp }) ∧
    ((verifyConnectionState cdc sv cs height pfx proofC connectionID connectionEnd store).1.isSome
        = true →
      (verifyConnectionState cdc sv cs height pfx proofC connectionID connectionEnd store).2
        = store) ∧
    ((verifyConnectionState cdc sv cs height pfx proofC connectionID connectionEnd store).1
        = none →
      ∃ args cs',
        produceVerificationArgs cdc cs height pfx proofC = Except.ok args ∧
        (verifyConnectionState cdc sv cs height pfx proofC connectionID connectionEnd store).2
          = some cs' ∧
        cs'.sequence = cs.sequence + 1 ∧ cs'.isFrozen = cs.isFrozen ∧
        cs'.consensusState =
          cs.consensusState.map (fun c => { c with timestamp := args.timestamp })) := by
  refine ⟨?_, ?_, ?_, ?_⟩
  · intro h
    rcases verifyMembership_spec cdc sv cs height proof path value store with
      ⟨e, he⟩ | ⟨tsd, cst, _, _, he⟩
    · rw [he]
    · rw [he] at h
      simp at h
  · intro h
    rcases verifyMembership_spec cdc sv cs height proof path value store with
      ⟨e, he⟩ | ⟨tsd, cst, hu, hcs, he⟩
    · rw [he] at h
      simp at h
    · exact ⟨tsd, cst,
        { cs with
          sequence := cs.sequence + 1
          consensusState := some { cst with timestamp := tsd.timestamp } },
        hu, hcs, by rw [he], rfl, rfl, rfl⟩
  · intro h
    rcases verifyConnectionState_spec cdc sv cs height pfx proofC connectionID connectionEnd
        store with ⟨e, he⟩ | ⟨args, _, he⟩
    · rw [he]
    · rw [he] at h
      simp at h
  · intro h
    rcases verifyConnectionState_spec cdc sv cs height pfx proofC connectionID connectionEnd
        store with ⟨e, he⟩ | ⟨args, hargs, he⟩
    · rw [he] at h
      simp at h
    · exact ⟨args,
        { cs with
          sequence := cs.sequence + 1
          consensusState := cs.consensusState.map (fun c => { c with timestamp := args.timestamp }) },
        hargs, by rw [he], rfl, rfl, rfl⟩

/-- C1 witness: at concrete successful calls both verification operations
write back a client state with the sequence advanced and the consensus
timestamp replaced by the decoded proof's timestamp. -/
theorem c1_verification_state_effects_witness :
    (∃ tsd consState cs',
      testCodec.unmarshalProof [9] = some tsd ∧
      csActive.consensusState = some consState ∧
      (verifyMembership testCodec svAlways csActive ⟨0, 1⟩ [9] [7] [5] (some csActive)).2
        = some cs' ∧
      cs'.sequence = csActive.sequence + 1 ∧ cs'.isFrozen = csActive.isFrozen ∧
      cs'.consensusState = some { consState with timestamp := tsd.timestamp }) ∧
    (∃ args cs',
      produceVerificationArgs testCodec csActive ⟨0, 1⟩ (some [3]) [9] = Except.ok args ∧
      (verifyConnectionState testCodec svAlways csActive ⟨0, 1⟩ (some [3]) [9] "conn" 0
        (some csActive)).2 = some cs' ∧
      cs'.sequence = csActive.sequence + 1 ∧ cs'.isFrozen = csActive.isFrozen ∧
      cs'.consensusState =
        csActive.consensusState.map (fun c => { c with timestamp := args.timestamp })) :=
  ⟨(c1_verification_state_effects testCodec svAlways csActive ⟨0, 1⟩ [9] [7] [5]
      (some csActive) (some [3]) [9] "conn" 0).2.1 (by decide),
   (c1_verification_state_effects testCodec svAlways csActive ⟨0, 1⟩ [9] [7] [5]
      (some csActive) (some [3]) [9] "conn" 0).2.2.2 (by decide)⟩

/-- C2 (code bug evaluation): on a frozen client, `VerifyNonMembership`
succeeds unconditionally (its body is a TODO stub returning nil) and
`VerifyMembership` can succeed because neither operation inspects the
frozen flag, so neither returns the ClientFrozen error the claim requires. -/
theorem c2_frozen_client_verification_succeeds :
    csFrozen.isFrozen = true ∧
    verifyNonMembership csFrozen ⟨0, 1⟩ [9] [7] (some csFrozen) = (none, some csFrozen) ∧
    (verifyMembership testCodec svAlways csFrozen ⟨0, 1⟩ [9] [7] [5] (some csFrozen)).1 = none := by
  decide

/-- C3 counterexample: a concrete frozen client on which `VerifyMembership`
succeeds, refuting the part of the claim that no operation on a frozen
client can succeed. -/
theorem c3_frozen_verify_succeeds_counterexample :
    csFrozen.isFrozen = true ∧
    (verifyMembership testCodec svAlways csFrozen ⟨0, 1⟩ [8] [7] [6] (some csFrozen)).1 = none := by
  decide

/-- C3 (amended): freezing is permanent for the status of a solo machine
client — a frozen client's `status` is Frozen, any client state a
successful verification call writes back is still frozen, the non-membership
stub writes nothing, and upgrade always fails — but verification operations
on a frozen client may themselves still succeed. -/
theorem c3_freeze_permanent_status (cdc : Codec) (sv : SigVerifier) (cs : SMClientState)
    (height : Height) (proof path value : Bytes) (store : SMStore)
    (pfx : Option Bytes) (proofC : Bytes) (connectionID : String) (connectionEnd : Nat)
    (hfz : cs.isFrozen = true) :
    cs.status = ClientStatus.frozen ∧
    (∀ cs', verifyMembership cdc sv cs height proof path value store = (none, some cs') →
      cs'.status = ClientStatus.frozen) ∧
    (∀ cs',
      verifyConnectionState cdc sv cs height pfx proofC connectionID connectionEnd store =
        (none, some cs') →
      cs'.status = ClientStatus.frozen) ∧
    verifyNonMembership cs height proof path store = (none, store) ∧
    cs.upgrade = some SMErr.invalidUpgrade := by
  refine ⟨by simp [SMClientState.status, hfz], ?_, ?_, rfl, rfl⟩
  · intro cs' h
    rcases verifyMembership_spec cdc sv cs height proof path value store with
      ⟨e, he⟩ | ⟨tsd, cst, _, _, he⟩
    · rw [he] at h
      simp at h
    · rw [he] at h
      simp only [Prod.mk.injEq, Option.some.injEq] at h
      rw [← h.2]
      simp [SMClientState.status, hfz]
  · intro cs' h
    rcases verifyConnectionState_spec cdc sv cs height pfx proofC connectionID connectionEnd
        store with ⟨e, he⟩ | ⟨args, _, he⟩
    · rw [he] at h
      simp at h
    · rw [he] at h
      simp only [Prod.mk.injEq, Option.some.injEq] at h
      rw [← h.2]
      simp [SMClientState.status, hfz]

/-- C3 witness: on the concrete frozen client, the status is Frozen before
a successful verification call and the written-back client state is still
Frozen after it. -/
theorem c3_freeze_permanent_status_witness :
    csFrozen.status = ClientStatus.frozen ∧ csFrozenAfter.status = ClientStatus.frozen :=
  ⟨(c3_freeze_permanent_status testCodec svAlways csFrozen ⟨0, 1⟩ [8] [7] [6] (some csFrozen)
      (some [3]) [9] "conn" 0 rfl).1,
   (c3_freeze_permanent_status testCodec svAlways csFrozen ⟨0, 1⟩ [8] [7] [6] (some csFrozen)
      (some [3]) [9] "conn" 0 rfl).2.1 csFrozenAfter (by decide)⟩

/-- C4: two conflicting headers at the same height strictly above the
client's latest trusted height, each independently verifiable against its
own (possibly different) trusted ancestor snapshot held by the client, make
`check_misbehaviour` succeed and leave the client frozen at the evidence
height. -/
theorem c4_misbehaviour_freezes_at_evidence_height (env : TMEnv) (c : TMClient)
    (m : Misbehaviour) (t1 t2 : TMConsensusState)
    (hfz : c.frozenHeight = none)
    (hh : m.header1.height = m.header2.height)
    (_hgt : Height.lt c.latestHeight m.header1.height)
    (ht1 : Height.lt m.header1.trustedHeight m.header1.height)
    (ht2 : Height.lt m.header2.trustedHeight m.header2.height)
    (hc1 : lookupCons c.consensus m.header1.trustedHeight = some t1)
    (hc2 : lookupCons c.consensus m.header2.trustedHeight = some t2)
    (hv1 : env.headerValid t1 m.header1 = true)
    (hv2 : env.headerValid t2 m.header2 = true)
    (hroot : m.header1.root ≠ m.header2.root) :
    checkMisbehaviour env c m = Except.ok { c with frozenHeight := some m.header1.height } := by
  have hcc : m.header1.consensusState ≠ m.header2.consensusState := by
    intro h
    exact hroot (congrArg TMConsensusState.root h)
  unfold checkMisbehaviour
  rw [hfz]
  simp only [Option.isSome_none, Bool.false_eq_true, if_false]
  rw [if_pos ⟨ht1, ht2⟩, hc1, hc2]
  simp only [hv1, reduceCtorEq, if_false, hv2]
  rw [if_pos (Or.inl ⟨hh, hcc⟩)]

/-- C4 witness: a concrete client frozen at the concrete evidence height
(0,9) by two conflicting headers trusted at the different ancestor heights
(0,1) and (0,3). -/
theorem c4_misbehaviour_witness :
    checkMisbehaviour envT cW mW = Except.ok { cW with frozenHeight := some mh1.height } :=
  c4_misbehaviour_freezes_at_evidence_height envT cW mW tcs1 tcs3 rfl rfl (by decide)
    (by decide) (by decide) rfl rfl rfl rfl (by decide)

/-- C5: a successful update never decreases `latest_height`, and a
successful update with a header at or below the latest height whose
consensus state is not yet stored back-fills exactly that consensus state
and leaves `latest_height` unchanged. -/
theorem c5_backfill_preserves_latest_height (env : TMEnv) (now : Nat) (c : TMClient)
    (hd : TMHeader) (c' : TMClient)
    (hok : updateState env now c hd = Except.ok c') :
    Height.le c.latestHeight c'.latestHeight ∧
    (Height.le hd.height c.latestHeight → lookupCons c.consensus hd.height = none →
      lookupCons c'.consensus hd.height = some hd.consensusState ∧
      c'.latestHeight = c.latestHeight) := by
  unfold updateState at hok
  by_cases hfz : c.frozenHeight.isSome = true
  · rw [if_pos hfz] at hok
    exact absurd hok (by simp)
  · rw [if_neg hfz] at hok
    rcases htc : lookupCons c.consensus hd.trustedHeight with _ | tc
    · simp [htc] at hok
    · simp only [htc] at hok
      by_cases hexp : now - tc.timestamp > c.trustingPeriod
      · rw [if_pos hexp] at hok
        exact absurd hok (by simp)
      · rw [if_neg hexp] at hok
        by_cases hv : env.headerValid tc hd = false
        · rw [if_pos hv] at hok
          exact absurd hok (by simp)
        · rw [if_neg hv] at hok
          rcases hst : lookupCons c.consensus hd.height with _ | stored
          · simp only [hst] at hok
            by_cases hlt : Height.lt c.latestHeight hd.height
            · rw [if_pos hlt] at hok
              injection hok with hc
              subst hc
              constructor
              · exact Height.le_of_lt hlt
              · intro hle _
                exact absurd hlt (Height.not_lt_of_le hle)
            · rw [if_neg hlt] at hok
              injection hok with hc
              subst hc
              refine ⟨Height.le_refl _, fun _ _ => ⟨?_, rfl⟩⟩
              simp [lookupCons]
          · simp only [hst] at hok
            by_cases heqc : stored = hd.consensusState
            · rw [if_pos heqc] at hok
              injection hok with hc
              subst hc
              refine ⟨Height.le_refl _, fun _ hnone => ?_⟩
              exact absurd hnone (by simp)
            · rw [if_neg heqc] at hok
              injection hok with hc
              subst hc
              refine ⟨Height.le_refl _, fun _ hnone => ?_⟩
              exact absurd hnone (by simp)


/-- C5 witness: back-filling the concrete header at height (0,2) into the
concrete client at latest height (0,3) stores the missing consensus state
and keeps the latest height, which does not decrease. -/
theorem c5_backfill_witness :
    Height.le cW.latestHeight cW2.latestHeight ∧
    lookupCons cW2.consensus hdW.height = some hdW.consensusState ∧
    cW2.latestHeight = cW.latestHeight :=
  ⟨(c5_backfill_preserves_latest_height envT 5 cW hdW cW2 rfl).1,
   ((c5_backfill_preserves_latest_height envT 5 cW hdW cW2 rfl).2 (by decide) rfl).1,
   ((c5_backfill_preserves_latest_height envT 5 cW hdW cW2 rfl).2 (by decide) rfl).2⟩

/-- C6: updating is idempotent — after a successful update whose matching
consensus state is stored at the header's height, running the same update
again succeeds and returns the same client unchanged. -/
theorem c6_update_idempotent (env : TMEnv) (now : Nat) (c : TMClient) (hd : TMHeader)
    (c₁ : TMClient)
    (h1 : updateState env now c hd = Except.ok c₁)
    (h2 : lookupCons c₁.consensus hd.height = some hd.consensusState) :
    updateState env now c₁ hd = Except.ok c₁ := by
  unfold updateState at h1
  by_cases hfz : c.frozenHeight.isSome = true
  · rw [if_pos hfz] at h1
    exact absurd h1 (by simp)
  · rw [if_neg hfz] at h1
    have hfze : c.frozenHeight = none := Option.not_isSome_iff_eq_none.mp hfz
    rcases htc : lookupCons c.consensus hd.trustedHeight with _ | tc
    · simp [htc] at h1
    · simp only [htc] at h1
      by_cases hexp : now - tc.timestamp > c.trustingPeriod
      · rw [if_pos hexp] at h1
        exact absurd h1 (by simp)
      · rw [if_neg hexp] at h1
        by_cases hv : env.headerValid tc hd = false
        · rw [if_pos hv] at h1
          exact absurd h1 (by simp)
        · rw [if_neg hv] at h1
          have hvt : env.headerValid tc hd = true := by
            revert hv
            cases env.headerValid tc hd <;> simp
          rcases hst : lookupCons c.consensus hd.height with _ | stored
          · simp only [hst] at h1
            have hne : hd.height ≠ hd.trustedHeight := by
              intro h
              rw [← h] at htc
              rw [hst] at htc
              exact absurd htc (by simp)
            by_cases hlt : Height.lt c.latestHeight hd.height
            · rw [if_pos hlt] at h1
              injection h1 with hc
              subst hc
              refine updateState_eval env now _ hd tc hfze ?_ hexp hvt ?_
              · show lookupCons ((hd.height, hd.consensusState) :: c.consensus)
                  hd.trustedHeight = some tc
                simp only [lookupCons, if_neg hne, htc]
              · show lookupCons ((hd.height, hd.consensusState) :: c.consensus)
                  hd.height = some hd.consensusState
                simp [lookupCons]
            · rw [if_neg hlt] at h1
              injection h1 with hc
              subst hc
              refine updateState_eval env now _ hd tc hfze ?_ hexp hvt ?_
              · show lookupCons ((hd.height, hd.consensusState) :: c.consensus)
                  hd.trustedHeight = some tc
                simp only [lookupCons, if_neg hne, htc]
              · show lookupCons ((hd.height, hd.consensusState) :: c.consensus)
                  hd.height = some hd.consensusState
                simp [lookupCons]
          · simp only [hst] at h1
            by_cases heqc : stored = hd.consensusState
            · rw [if_pos heqc] at h1
              injection h1 with hc
              subst hc
              rw [heqc] at hst
              exact updateState_eval env now c hd tc hfze htc hexp hvt hst
            · rw [if_neg heqc] at h1
              injection h1 with hc
              subst hc
              have h2' : lookupCons c.consensus hd.height = some hd.consensusState := h2
              rw [hst] at h2'
              injection h2' with h3
              exact absurd h3 heqc

/-- C6 witness: re-submitting the concrete header `hdW` to the concrete
already-updated client `cW2` succeeds and returns `cW2` unchanged. -/
theorem c6_update_idempotent_witness : updateState envT 5 cW2 hdW = Except.ok cW2 :=
  c6_update_idempotent envT 5 cW hdW cW2 rfl (by decide)

/-- C7 counterexample: a concrete non-frozen solo machine client whose
consensus timestamp lies more than a trusting period of 10 before the
current time 1000 still has status Active, not Expired — the solo machine
`Status` never returns Expired. -/
theorem c7_expired_counterexample :
    csActive.isFrozen = false ∧
    1000 - ((csActive.consensusState.map fun c => c.timestamp).getD 0) > 10 ∧
    csActive.status ≠ ClientStatus.expired := by
  decide

/-- C7 (amended): the solo machine `status` has exactly the two results
Frozen (when the frozen flag is set) and Active (otherwise); it never
returns Expired, because a solo machine has no trusting period. -/
theorem c7_status_two_values (cs : SMClientState) :
    cs.status = (if cs.isFrozen then ClientStatus.frozen else ClientStatus.active) ∧
    cs.status ≠ ClientStatus.expired := by
  unfold SMClientState.status
  by_cases h : cs.isFrozen <;> simp [h]

/-- C7 witness: the amended statement evaluated at the concrete client. -/
theorem c7_status_two_values_witness : csActive.status ≠ ClientStatus.expired :=
  (c7_status_two_values csActive).2

/-- C8: `Initialize` fails exactly when the supplied consensus state does
not match the one recorded in the initial client state, and on a match the
keeper stores the first consensus state at the client's initial sequence. -/
theorem c8_initialize_iff_match (cs : SMClientState) (consState : SMConsensusState) :
    ((initializeClient cs consState).isSome = true ↔ cs.consensusState ≠ some consState) ∧
    (cs.consensusState = some consState →
      createClient cs consState = Except.ok [(cs.sequence, consState)]) := by
  constructor
  · unfold initializeClient
    by_cases h : cs.consensusState = some consState <;> simp [h]
  · intro h
    unfold createClient initializeClient
    simp [h]

/-- C8 witness: creating a client from the concrete client state and its
matching consensus state succeeds and stores that first consensus state. -/
theorem c8_initialize_witness :
    createClient csActive { pubKey := some 0, diversifier := "d", timestamp := 3 } =
      Except.ok [(1, { pubKey := some 0, diversifier := "d", timestamp := 3 })] :=
  (c8_initialize_iff_match csActive
    { pubKey := some 0, diversifier := "d", timestamp := 3 }).2 rfl

/-- C9: when the proof height's revision number is nonzero, or its revision
height differs from the client's sequence, or the proof bytes are empty
(given a codec that, like the protobuf codec, decodes the empty blob to a
message with empty signature data), `VerifyMembership` and
`VerifyConnectionState` fail with an error, leave the store untouched, and
never consult the signature oracle: the result is identical for any two
oracles. -/
theorem c9_guard_failures (cdc : Codec) (sv sv' : SigVerifier) (cs : SMClientState)
    (height : Height) (proof path value : Bytes) (store : SMStore)
    (pfx : Option Bytes) (connectionID : String) (connectionEnd : Nat)
    (hempty : ∀ tsd, cdc.unmarshalProof [] = some tsd → tsd.signatureData = [])
    (hguard : height.revisionNumber ≠ 0 ∨ cs.sequence ≠ height.revisionHeight ∨ proof = []) :
    (verifyMembership cdc sv cs height proof path value store).1.isSome = true ∧
    verifyMembership cdc sv cs height proof path value store =
      verifyMembership cdc sv' cs height proof path value store ∧
    (verifyMembership cdc sv cs height proof path value store).2 = store ∧
    (verifyConnectionState cdc sv cs height pfx proof connectionID connectionEnd store).1.isSome
      = true ∧
    verifyConnectionState cdc sv cs height pfx proof connectionID connectionEnd store =
      verifyConnectionState cdc sv' cs height pfx proof connectionID connectionEnd store ∧
    (verifyConnectionState cdc sv cs height pfx proof connectionID connectionEnd store).2
      = store := by
  obtain ⟨e1, he1⟩ := verifyMembership_guard cdc cs height proof path value store hempty hguard
  obtain ⟨e2, he2⟩ :=
    verifyConnectionState_guard cdc cs height pfx proof connectionID connectionEnd store hguard
  refine ⟨?_, ?_, ?_, ?_, ?_, ?_⟩ <;> simp [he1 sv, he1 sv', he2 sv, he2 sv']

/-- C9 witness: at a concrete proof height with revision number 1, both
verification calls fail, leave the store unchanged, and give the same
result under an all-accepting and an all-rejecting signature oracle. -/
theorem c9_guard_failures_witness :
    (verifyMembership testCodec svAlways csActive ⟨1, 1⟩ [9] [7] [5] (some csActive)).1.isSome
      = true ∧
    verifyMembership testCodec svAlways csActive ⟨1, 1⟩ [9] [7] [5] (some csActive) =
      verifyMembership testCodec svNever csActive ⟨1, 1⟩ [9] [7] [5] (some csActive) ∧
    (verifyMembership testCodec svAlways csActive ⟨1, 1⟩ [9] [7] [5] (some csActive)).2
      = some csActive ∧
    (verifyConnectionState testCodec svAlways csActive ⟨1, 1⟩ (some [3]) [9] "conn" 0
      (some csActive)).1.isSome = true ∧
    verifyConnectionState testCodec svAlways csActive ⟨1, 1⟩ (some [3]) [9] "conn" 0
      (some csActive) =
      verifyConnectionState testCodec svNever csActive ⟨1, 1⟩ (some [3]) [9] "conn" 0
        (some csActive) ∧
    (verifyConnectionState testCodec svAlways csActive ⟨1, 1⟩ (some [3]) [9] "conn" 0
      (some csActive)).2 = some csActive :=
  c9_guard_failures testCodec svAlways svNever csActive ⟨1, 1⟩ [9] [7] [5] (some csActive)
    (some [3]) "conn" 0
    (fun tsd h => by injection h with h2; rw [← h2]) (Or.inl (by decide))

/-- C10: `storeWasmCode` rejects duplicates — when the sha256 hash of the
(uncompressed) code is already recorded it fails with `ErrWasmCodeExists` —
and on success the returned hash is exactly the sha256 hash of the
uncompressed code and is recorded in the resulting code-hash store. -/
theorem c10_store_wasm_code_hash (env : WasmEnv) (store : List Bytes) (code codeU : Bytes)
    (hu : uncompressCode env code = some codeU) :
    (env.sha256 codeU ∈ store →
      storeWasmCode env store code = Except.error WasmErr.wasmCodeExists) ∧
    (∀ h store', storeWasmCode env store code = Except.ok (h, store') →
      h = env.sha256 codeU ∧ h ∈ store') := by
  constructor
  · intro hmem
    unfold storeWasmCode
    simp only [hu, generateWasmCodeHash]
    rw [if_pos hmem]
  · intro h store' hok
    unfold storeWasmCode at hok
    simp only [hu, generateWasmCodeHash] at hok
    by_cases hmem : env.sha256 codeU ∈ store
    · rw [if_pos hmem] at hok
      exact absurd hok (by simp)
    · rw [if_neg hmem] at hok
      by_cases hval : env.validateWasmCode codeU = false
      · rw [if_pos hval] at hok
        exact absurd hok (by simp)
      · rw [if_neg hval] at hok
        rcases hvm : env.vmStoreCode codeU with _ | vmh
        · simp [hvm] at hok
        · simp only [hvm] at hok
          by_cases hne : vmh ≠ env.sha256 codeU
          · rw [if_pos hne] at hok
            exact absurd hok (by simp)
          · rw [if_neg hne] at hok
            by_cases hpin : env.vmPinOk vmh = false
            · rw [if_pos hpin] at hok
              exact absurd hok (by simp)
            · rw [if_neg hpin] at hok
              injection hok with hpair
              rw [Prod.mk.injEq] at hpair
              obtain ⟨hh, hs⟩ := hpair
              subst hh
              subst hs
              exact ⟨rfl, List.mem_cons_self _ _⟩

/-- C10 witness: with a concrete environment, storing code whose hash is
already recorded fails with `ErrWasmCodeExists`, and storing it into an
empty store returns its hash, which is recorded. -/
theorem c10_store_wasm_code_witness :
    storeWasmCode envW10 [[102]] [1, 2] = Except.error WasmErr.wasmCodeExists ∧
    (([102] : Bytes) = envW10.sha256 [1, 2] ∧ ([102] : Bytes) ∈ [([102] : Bytes)]) :=
  ⟨(c10_store_wasm_code_hash envW10 [[102]] [1, 2] [1, 2] rfl).1 (by decide),
   (c10_store_wasm_code_hash envW10 [] [1, 2] [1, 2] rfl).2 [102] [[102]] rfl⟩

end IBC
